import Mathlib

/-!
Verification of the chiral-network NAT-test harness
(`src-tauri/src/bin/nat_test.rs`) and the bootstrap configuration accessor
(`src-tauri/src/commands/bootstrap.rs`).

Text is modelled as `List Char` (the character sequence of a Rust `String`);
external effects (Docker invocations, file reads/writes, log captures) are
modelled as a `World` record supplying the outcome of each external operation,
and `natTestMain` replays the control flow of the Rust `main` over that world.
-/

namespace ChiralNatTest

instance {ε α : Type} [DecidableEq ε] [DecidableEq α] : DecidableEq (Except ε α)
  | Except.error a, Except.error b =>
    decidable_of_iff (a = b) ⟨by intro h; cases h; rfl, by intro h; cases h; rfl⟩
  | Except.error _, Except.ok _ => isFalse (by intro h; cases h)
  | Except.ok _, Except.error _ => isFalse (by intro h; cases h)
  | Except.ok a, Except.ok b =>
    decidable_of_iff (a = b) ⟨by intro h; cases h; rfl, by intro h; cases h; rfl⟩

/-- Mirrors Rust `str::contains(pat)`: `pat` occurs as a contiguous substring
of `s` (the empty pattern is contained in every string). -/
def containsSub : List Char → List Char → Bool
  | [], pat => pat.isEmpty
  | c :: t, pat => pat.isPrefixOf (c :: t) || containsSub t pat

/-- Fuel-indexed scanner behind `replaceAll`; the fuel bounds the recursion so
the definition is structural (hence computable by kernel reduction).  With
`pat ≠ []` and fuel at least the length of the text the fuel never runs out. -/
def replaceAllAux (pat rep : List Char) : Nat → List Char → List Char
  | _, [] => []
  | 0, s => s
  | fuel + 1, c :: t =>
    if pat.isPrefixOf (c :: t) then rep ++ replaceAllAux pat rep fuel ((c :: t).drop pat.length)
    else c :: replaceAllAux pat rep fuel t

/-- Mirrors Rust `str::replace(pat, rep)`: replace every non-overlapping
occurrence of `pat` in `s` by `rep`, scanning left to right.  An empty pattern
matches at every character boundary, as in Rust. -/
def replaceAll (s pat rep : List Char) : List Char :=
  if pat.isEmpty then rep ++ s.flatMap (fun c => c :: rep)
  else replaceAllAux pat rep s.length s

/-- Fuel-indexed scanner behind `countOcc`. -/
def countOccAux (pat : List Char) : Nat → List Char → Nat
  | _, [] => 0
  | 0, _ => 0
  | fuel + 1, c :: t =>
    if pat.isPrefixOf (c :: t) then countOccAux pat fuel ((c :: t).drop pat.length) + 1
    else countOccAux pat fuel t

/-- Mirrors Rust `s.matches(pat).count()`: the number of non-overlapping
occurrences of `pat` in `s`, scanning left to right. -/
def countOcc (s pat : List Char) : Nat :=
  if pat.isEmpty then s.length + 1 else countOccAux pat s.length s

/-- The number of positions of `s` at which `pat` occurs (the mathematical
notion of "number of occurrences of a substring"). -/
def posCount (s pat : List Char) : Nat :=
  List.countP (fun i => pat.isPrefixOf (s.drop i)) (List.range (s.length + 1))

/-- Fuel-indexed scanner behind `restoreSafe`. -/
def restoreSafeAux (pat rep : List Char) : Nat → List Char → Bool
  | _, [] => true
  | 0, _ => true
  | fuel + 1, c :: t =>
    if pat.isPrefixOf (c :: t) then restoreSafeAux pat rep fuel ((c :: t).drop pat.length)
    else !(rep.isPrefixOf (c :: replaceAll t pat rep)) && restoreSafeAux pat rep fuel t

/-- Predicate `restoreSafe s pat rep`: replacing `pat` by `rep` in `s` creates
no occurrence of `rep` other than the inserted copies: at every scan position
of `s` that is not a `pat` match, `rep` does not start in the rewritten text.
This is the condition under which the harness's restore step
(`replace(rep, pat)`) exactly undoes the rewrite step (`replace(pat, rep)`). -/
def restoreSafe (s pat rep : List Char) : Bool := restoreSafeAux pat rep s.length s

/-! ### Peer-id extraction (nat_test.rs lines 57-93)

The Rust harness compiles the regex `local_peer_id=(12D3[A-Za-z0-9]{44,})` and,
up to 20 times, sleeps one second, fetches the bootstrap container's log lines
containing `local_peer_id=`, and takes the first capture.  The regex search is
modelled directly: leftmost match position, greedy maximal alphanumeric run. -/

/-- The literal part of the extraction pattern: `local_peer_id=` followed by
the fixed token prefix `12D3`. -/
def peerIdLit : List Char := "local_peer_id=12D3".data

/-- Try to match `local_peer_id=(12D3[A-Za-z0-9]{44,})` anchored at the start
of `s`; on success return the capture group (the token). The quantifier is
greedy with nothing after it, so the run is the maximal alphanumeric run. -/
def matchTokenAt (s : List Char) : Option (List Char) :=
  if peerIdLit.isPrefixOf s then
    let run := (s.drop peerIdLit.length).takeWhile Char.isAlphanum
    if 44 ≤ run.length then some ("12D3".data ++ run) else none
  else none

/-- Leftmost regex match over the whole line, as `Regex::captures` does:
scan positions left to right, return the first anchored match. -/
def regexFindPeerId : List Char → Option (List Char)
  | [] => none
  | c :: t =>
    match matchTokenAt (c :: t) with
    | some tok => some tok
    | none => regexFindPeerId t

/-- Mirrors Rust `str::trim`: strip whitespace from both ends. -/
def trimChars (s : List Char) : List Char :=
  ((s.dropWhile Char.isWhitespace).reverse.dropWhile Char.isWhitespace).reverse

/-- One attempt body (nat_test.rs lines 75-86): if the captured grep output is
non-blank, run the regex over it and return the capture, else no result. -/
def findPeerId (line : List Char) : Option (List Char) :=
  if trimChars line = [] then none else regexFindPeerId line

/-- The fixed delay, in seconds, slept at the start of every extraction
attempt (`Duration::from_secs(1)`, nat_test.rs line 62). -/
def attemptDelaySecs : Nat := 1

/-- The retry bound of the extraction loop (`for attempt in 1..=20`). -/
def maxAttempts : Nat := 20

/-- The extraction loop from attempt `a` with `k` attempts left.
`cap a` is the (fallible, `output()?`) grep capture of attempt `a`.
Returns the loop outcome together with the number of attempts performed;
each attempt performed sleeps `attemptDelaySecs` once before its query. -/
def extractGo (cap : Nat → Except String (List Char)) :
    Nat → Nat → Except String (Option (Nat × List Char)) × Nat
  | 0, _ => (Except.ok none, 0)
  | k + 1, a =>
    match cap a with
    | Except.error e => (Except.error e, 1)
    | Except.ok line =>
      match findPeerId line with
      | some t => (Except.ok (some (a, t)), 1)
      | none =>
        let r := extractGo cap k (a + 1)
        (r.1, r.2 + 1)

/-- The whole extraction phase: attempts numbered 1 through `maxAttempts`. -/
def extractPeerId (cap : Nat → Except String (List Char)) :
    Except String (Option (Nat × List Char)) × Nat :=
  extractGo cap maxAttempts 1

/-- The error the harness fails with when all attempts are exhausted
(nat_test.rs line 93, the `ok_or` message). -/
def extractionTimeoutMsg : String :=
  "Could not extract peer ID from bootstrap logs after 20 seconds. Check container logs with: docker logs chiral-bootstrap"

/-! ### Connectivity classifier and marker counts (nat_test.rs lines 139-174) -/

/-- nat_test.rs line 150: a container's combined log text classifies as
connected exactly when it contains `"Connected to"` or
`"Total connected peers"`. -/
def classifyConnected (s : List Char) : Bool :=
  containsSub s "Connected to".data || containsSub s "Total connected peers".data

/-- The three traversal-protocol markers counted in nat_test.rs lines 168-170. -/
def natMarkers : List (List Char) := ["DCUtR".data, "AutoNAT".data, "Reachability".data]

/-! ### The orchestration sequence (`main`) -/

/-- The placeholder token rewritten in the compose file (nat_test.rs line 98). -/
def bootstrapPlaceholder : List Char := "BOOTSTRAP_PEER_ID".data

/-- The containers whose logs are classified in step 9 (nat_test.rs line 139). -/
def containerNames : List String :=
  ["chiral-peer1", "chiral-peer2", "chiral-peer3", "chiral-public-peer"]

/-- Outcome of every external operation `main` performs, in program order.
`Except.error e` models an I/O-level failure of the invocation itself (the
`?` operator propagating it); the payload models what the operation reports.
Log captures are the combined stdout and stderr text. -/
structure World where
  /-- Result of `docker build` (line 25): did the status report success? -/
  buildRes : Except String Bool
  /-- Result of `docker compose up -d bootstrap` (line 37). -/
  bootRes : Except String Bool
  /-- Result of `docker inspect` for the container start time (line 50); its content
  only parameterises the log query and does not influence control flow. -/
  inspectStartRes : Except String (List Char)
  /-- grep capture of attempt `a` of the extraction loop (line 70). -/
  capRes : Nat → Except String (List Char)
  /-- Outcome of `fs::read_to_string` (line 97): `none` = success (the model
  returns the current file content), `some e` = I/O error. -/
  readRes : Option String
  /-- outcomes of the two `fs::write` calls (lines 99 and 116), indexed 1, 2. -/
  writeRes : Nat → Option String
  /-- Result of `docker compose up -d` for all peers (line 104). -/
  startAllRes : Except String Bool
  /-- Result of `docker inspect chiral-peer1`: the command line (line 124). -/
  inspectPeer1Res : Except String (List Char)
  /-- combined logs of the four containers checked in step 9, by index. -/
  connLogsRes : Nat → Except String (List Char)
  /-- combined `chiral-peer1` logs fetched for the NAT marker counts (line 159). -/
  natLogsRes : Except String (List Char)

/-- What a completed run reports (the console output's observable content):
the peer-id configuration check, the per-container connectivity
classification, and the three marker counts. -/
structure Report where
  peerConfigOk : Bool
  connected : List Bool
  dcutrCount : Nat
  autonatCount : Nat
  reachabilityCount : Nat
  deriving DecidableEq

/-- The step-9 loop over container indexes `i, i+1, ...` (`k` containers
left): fetch each container's logs (`output()?`, fallible) and classify. -/
def connChecksFrom (logs : Nat → Except String (List Char)) : Nat → Nat → Except String (List Bool)
  | _, 0 => Except.ok []
  | i, k + 1 =>
    match logs i with
    | Except.error e => Except.error e
    | Except.ok l =>
      match connChecksFrom logs (i + 1) k with
      | Except.error e => Except.error e
      | Except.ok rest => Except.ok (classifyConnected l :: rest)

/-- The control flow of `main` (nat_test.rs lines 7-186) over a `World`,
threading the compose file's content: `fs0` is its pre-run content, the
second component of the result is its content when the process exits.
Fatal paths return `Except.error` with the propagated message (non-zero
process exit); a full run returns `Except.ok` with the report (exit zero).
The cleanup step (lines 14-21) discards its results and the two sleeps
(lines 62, 120) have no effect on this state, so neither appears.
On a failed `fs::write` the on-disk content is left as it was. -/
def natTestMain (w : World) (fs0 : List Char) : Except String Report × List Char :=
  match w.buildRes with
  | Except.error e => (Except.error e, fs0)
  | Except.ok bOk =>
  if !bOk then (Except.error "Build failed", fs0) else
  match w.bootRes with
  | Except.error e => (Except.error e, fs0)
  | Except.ok sOk =>
  if !sOk then (Except.error "Bootstrap start failed", fs0) else
  match w.inspectStartRes with
  | Except.error e => (Except.error e, fs0)
  | Except.ok _startTime =>
  match (extractPeerId w.capRes).1 with
  | Except.error e => (Except.error e, fs0)
  | Except.ok none => (Except.error extractionTimeoutMsg, fs0)
  | Except.ok (some (_attempt, peerId)) =>
  match w.readRes with
  | some e => (Except.error e, fs0)
  | none =>
  let updated := replaceAll fs0 bootstrapPlaceholder peerId
  match w.writeRes 1 with
  | some e => (Except.error e, fs0)
  | none =>
  match w.startAllRes with
  | Except.error e => (Except.error e, updated)
  | Except.ok aOk =>
  if !aOk then (Except.error "Peer start failed", updated) else
  let original := replaceAll updated peerId bootstrapPlaceholder
  match w.writeRes 2 with
  | some e => (Except.error e, updated)
  | none =>
  match w.inspectPeer1Res with
  | Except.error e => (Except.error e, original)
  | Except.ok cmdStr =>
  match connChecksFrom w.connLogsRes 0 containerNames.length with
  | Except.error e => (Except.error e, original)
  | Except.ok conns =>
  match w.natLogsRes with
  | Except.error e => (Except.error e, original)
  | Except.ok natLogs =>
  (Except.ok
    { peerConfigOk := containsSub cmdStr peerId
      connected := conns
      dcutrCount := countOcc natLogs "DCUtR".data
      autonatCount := countOcc natLogs "AutoNAT".data
      reachabilityCount := countOcc natLogs "Reachability".data }, original)

/-- Exit-status view of a run: `true` = process exits zero. -/
def runOk (p : Except String Report × List Char) : Bool :=
  match p.1 with
  | Except.ok _ => true
  | Except.error _ => false

/-! ### Bootstrap configuration accessor (commands/bootstrap.rs) -/

/-- The hardcoded bootstrap node list (bootstrap.rs lines 6-23); the other
entries are commented out in the source. -/
def get_bootstrap_nodes : List String :=
  ["/ip4/35.237.133.42/tcp/4001/p2p/12D3KooWBeY3FuPXggnUu8f56TQde1xfvFpdsLV5coXptn5ztVJG"]

/-- The Tauri command wrapper (bootstrap.rs lines 25-28). -/
def get_bootstrap_nodes_command : List String := get_bootstrap_nodes

/-- Follows the spec's words ("multiaddress-with-identity format"): a string
of the shape `/ip4/<dotted-host>/tcp/<port>/p2p/<peer-id>` where the peer id
is a `12D3`-prefixed alphanumeric token of length at least 48.  Stated from
the spec so the source constant can be checked against it. -/
def specMultiaddrWithIdentity (s : String) : Bool :=
  let l := s.data
  let r1 := l.drop 5
  let host := r1.takeWhile (fun c => c.isDigit || c == '.')
  let r2 := r1.drop host.length
  let r3 := r2.drop 5
  let port := r3.takeWhile Char.isDigit
  let r4 := r3.drop port.length
  let pid := r4.drop 5
  "/ip4/".data.isPrefixOf l && !host.isEmpty &&
  "/tcp/".data.isPrefixOf r2 && !port.isEmpty &&
  "/p2p/".data.isPrefixOf r4 && "12D3".data.isPrefixOf pid &&
  pid.all Char.isAlphanum && decide (48 ≤ pid.length)

end ChiralNatTest

namespace ChiralNatTest

example : containsSub "abcd".data "bc".data = true := by decide

example : containsSub "abcd".data "ca".data = false := by decide

example : replaceAll "cmd --peer=BOOTSTRAP_PEER_ID".data "BOOTSTRAP_PEER_ID".data "X".data
    = "cmd --peer=X".data := by decide

example : replaceAll "aba".data "b".data "aa".data = "aaaa".data := by decide

example : replaceAll "aaaa".data "aa".data "b".data = "bb".data := by decide

example : countOcc "xDCUtRyyDCUtRDCUtR".data "DCUtR".data = 3 := by decide

example : posCount "xDCUtRyyDCUtRDCUtR".data "DCUtR".data = 3 := by decide

example : countOcc "aaaa".data "aa".data = 2 := by decide

example : posCount "aaaa".data "aa".data = 3 := by decide

example :
    findPeerId ("noise local_peer_id=12D3KooWaaaaaaaaaaaaaaaaaaaaaaaaaaaaaaaaaaaaaaaa tail".data)
      = some "12D3KooWaaaaaaaaaaaaaaaaaaaaaaaaaaaaaaaaaaaaaaaa".data := by decide

example : findPeerId "local_peer_id=12D3KooWshort".data = none := by decide

example : findPeerId "   ".data = none := by decide

example : classifyConnected "x Total connected peers: 3".data = true := by decide

example : classifyConnected "nothing here".data = false := by decide

example : specMultiaddrWithIdentity
    "/ip4/35.237.133.42/tcp/4001/p2p/12D3KooWBeY3FuPXggnUu8f56TQde1xfvFpdsLV5coXptn5ztVJG" = true := by
  decide

example :
    extractPeerId (fun a => Except.ok (if a = 3 then "local_peer_id=12D3KooWbbbbbbbbbbbbbbbbbbbbbbbbbbbbbbbbbbbbbbbb".data else []))
      = (Except.ok (some (3, "12D3KooWbbbbbbbbbbbbbbbbbbbbbbbbbbbbbbbbbbbbbbbb".data)), 3) := by decide

example : extractPeerId (fun _ => Except.ok []) = (Except.ok none, 20) := by decide

/-! ### Fuel irrelevance and unfolding equations for the scanners -/

theorem replaceAllAux_eq_of_le (pat rep : List Char) (hp : pat ≠ []) :
    ∀ (f : Nat) (s : List Char), s.length ≤ f →
      replaceAllAux pat rep f s = replaceAllAux pat rep s.length s := by
  intro f
  induction f using Nat.strong_induction_on with
  | _ f ih =>
    intro s hs
    match f, s with
    | 0, s =>
      interval_cases hl : s.length
      · rw [List.length_eq_zero.mp hl]
    | f + 1, [] => rfl
    | f + 1, c :: t =>
      have ht : t.length ≤ f := by simpa using hs
      have hpl : 1 ≤ pat.length := List.length_pos.mpr hp
      simp only [List.length_cons, replaceAllAux]
      by_cases hpre : pat.isPrefixOf (c :: t) = true
      · simp only [hpre, if_true]
        have hdl : ((c :: t).drop pat.length).length ≤ t.length := by
          simp only [List.length_drop, List.length_cons]; omega
        rw [ih f (Nat.lt_succ_self f) _ (le_trans hdl ht),
          ih t.length (by omega) _ hdl]
      · simp only [hpre, Bool.false_eq_true, if_false]
        rw [ih f (Nat.lt_succ_self f) t ht]

theorem countOccAux_eq_of_le (pat : List Char) (hp : pat ≠ []) :
    ∀ (f : Nat) (s : List Char), s.length ≤ f →
      countOccAux pat f s = countOccAux pat s.length s := by
  intro f
  induction f using Nat.strong_induction_on with
  | _ f ih =>
    intro s hs
    match f, s with
    | 0, s =>
      interval_cases hl : s.length
      · rw [List.length_eq_zero.mp hl]
    | f + 1, [] => rfl
    | f + 1, c :: t =>
      have ht : t.length ≤ f := by simpa using hs
      have hpl : 1 ≤ pat.length := List.length_pos.mpr hp
      simp only [List.length_cons, countOccAux]
      by_cases hpre : pat.isPrefixOf (c :: t) = true
      · simp only [hpre, if_true]
        have hdl : ((c :: t).drop pat.length).length ≤ t.length := by
          simp only [List.length_drop, List.length_cons]; omega
        rw [ih f (Nat.lt_succ_self f) _ (le_trans hdl ht),
          ih t.length (by omega) _ hdl]
      · simp only [hpre, Bool.false_eq_true, if_false]
        rw [ih f (Nat.lt_succ_self f) t ht]

theorem restoreSafeAux_eq_of_le (pat rep : List Char) (hp : pat ≠ []) :
    ∀ (f : Nat) (s : List Char), s.length ≤ f →
      restoreSafeAux pat rep f s = restoreSafeAux pat rep s.length s := by
  intro f
  induction f using Nat.strong_induction_on with
  | _ f ih =>
    intro s hs
    match f, s with
    | 0, s =>
      interval_cases hl : s.length
      · rw [List.length_eq_zero.mp hl]
    | f + 1, [] => rfl
    | f + 1, c :: t =>
      have ht : t.length ≤ f := by simpa using hs
      have hpl : 1 ≤ pat.length := List.length_pos.mpr hp
      simp only [List.length_cons, restoreSafeAux]
      by_cases hpre : pat.isPrefixOf (c :: t) = true
      · simp only [hpre, if_true]
        have hdl : ((c :: t).drop pat.length).length ≤ t.length := by
          simp only [List.length_drop, List.length_cons]; omega
        rw [ih f (Nat.lt_succ_self f) _ (le_trans hdl ht),
          ih t.length (by omega) _ hdl]
      · simp only [hpre, Bool.false_eq_true, if_false]
        rw [ih f (Nat.lt_succ_self f) t ht]

theorem isEmpty_false_of_ne_nil {pat : List Char} (hp : pat ≠ []) : pat.isEmpty = false := by
  cases pat with
  | nil => exact absurd rfl hp
  | cons c t => rfl

theorem replaceAll_nil (pat rep : List Char) (hp : pat ≠ []) : replaceAll [] pat rep = [] := by
  simp [replaceAll, isEmpty_false_of_ne_nil hp, replaceAllAux]

theorem replaceAll_cons (pat rep : List Char) (hp : pat ≠ []) (c : Char) (t : List Char) :
    replaceAll (c :: t) pat rep =
      if pat.isPrefixOf (c :: t) then rep ++ replaceAll ((c :: t).drop pat.length) pat rep
      else c :: replaceAll t pat rep := by
  have hpl : 1 ≤ pat.length := List.length_pos.mpr hp
  simp only [replaceAll, isEmpty_false_of_ne_nil hp, Bool.false_eq_true, if_false,
    List.length_cons, replaceAllAux]
  by_cases hpre : pat.isPrefixOf (c :: t) = true
  · simp only [hpre, if_true]
    rw [replaceAllAux_eq_of_le pat rep hp t.length _
      (by simp only [List.length_drop, List.length_cons]; omega)]
  · simp [hpre]

theorem countOcc_nil (pat : List Char) (hp : pat ≠ []) : countOcc [] pat = 0 := by
  simp [countOcc, isEmpty_false_of_ne_nil hp, countOccAux]

theorem countOcc_cons (pat : List Char) (hp : pat ≠ []) (c : Char) (t : List Char) :
    countOcc (c :: t) pat =
      if pat.isPrefixOf (c :: t) then countOcc ((c :: t).drop pat.length) pat + 1
      else countOcc t pat := by
  have hpl : 1 ≤ pat.length := List.length_pos.mpr hp
  simp only [countOcc, isEmpty_false_of_ne_nil hp, Bool.false_eq_true, if_false,
    List.length_cons, countOccAux]
  by_cases hpre : pat.isPrefixOf (c :: t) = true
  · simp only [hpre, if_true]
    rw [countOccAux_eq_of_le pat hp t.length _
      (by simp only [List.length_drop, List.length_cons]; omega)]
  · simp [hpre]

theorem restoreSafe_nil (pat rep : List Char) : restoreSafe [] pat rep = true := rfl

theorem restoreSafe_cons (pat rep : List Char) (hp : pat ≠ []) (c : Char) (t : List Char) :
    restoreSafe (c :: t) pat rep =
      if pat.isPrefixOf (c :: t) then restoreSafe ((c :: t).drop pat.length) pat rep
      else !(rep.isPrefixOf (c :: replaceAll t pat rep)) && restoreSafe t pat rep := by
  have hpl : 1 ≤ pat.length := List.length_pos.mpr hp
  simp only [restoreSafe, List.length_cons, restoreSafeAux]
  by_cases hpre : pat.isPrefixOf (c :: t) = true
  · simp only [hpre, if_true]
    rw [restoreSafeAux_eq_of_le pat rep hp t.length _
      (by simp only [List.length_drop, List.length_cons]; omega)]
  · simp [hpre]

/-! ### The rewrite/restore round trip -/

theorem replaceAll_append_self (rep pat X : List Char) (hr : rep ≠ []) :
    replaceAll (rep ++ X) rep pat = pat ++ replaceAll X rep pat := by
  cases rep with
  | nil => exact absurd rfl hr
  | cons r rest =>
    rw [show (r :: rest) ++ X = r :: (rest ++ X) from rfl, replaceAll_cons _ _ hr]
    have hpre : (r :: rest).isPrefixOf (r :: (rest ++ X)) = true := by
      rw [List.isPrefixOf_iff_prefix]
      exact ⟨X, rfl⟩
    rw [if_pos hpre]
    have hdrop : ((r :: rest) ++ X).drop (r :: rest).length = X := List.drop_left' rfl
    rw [show r :: (rest ++ X) = (r :: rest) ++ X from rfl, hdrop]

theorem replaceAll_roundtrip_aux (pat rep : List Char) (hp : pat ≠ []) (hr : rep ≠ []) :
    ∀ (n : Nat) (s : List Char), s.length ≤ n → restoreSafe s pat rep = true →
      replaceAll (replaceAll s pat rep) rep pat = s := by
  intro n
  induction n with
  | zero =>
    intro s hs _
    have : s = [] := List.length_eq_zero.mp (Nat.le_zero.mp hs)
    subst this
    rw [replaceAll_nil _ _ hp, replaceAll_nil _ _ hr]
  | succ n ih =>
    intro s hs hsafe
    cases s with
    | nil => rw [replaceAll_nil _ _ hp, replaceAll_nil _ _ hr]
    | cons c t =>
      by_cases hpre : pat.isPrefixOf (c :: t) = true
      · have hd : pat ++ (c :: t).drop pat.length = c :: t := by
          obtain ⟨u, hu⟩ := List.isPrefixOf_iff_prefix.mp hpre
          rw [← hu, List.drop_left' rfl]
        have hdlen : ((c :: t).drop pat.length).length ≤ n := by
          have h1 := List.length_pos.mpr hp
          simp only [List.length_drop, List.length_cons]
          simp only [List.length_cons] at hs
          omega
        have hsafe2 : restoreSafe ((c :: t).drop pat.length) pat rep = true := by
          rw [restoreSafe_cons _ _ hp, if_pos hpre] at hsafe
          exact hsafe
        rw [replaceAll_cons _ _ hp, if_pos hpre, replaceAll_append_self rep pat _ hr,
          ih _ hdlen hsafe2, hd]
      · rw [restoreSafe_cons _ _ hp, if_neg hpre] at hsafe
        simp only [Bool.and_eq_true, Bool.not_eq_true'] at hsafe
        obtain ⟨h1, h2⟩ := hsafe
        have hnp : ¬ rep.isPrefixOf (c :: replaceAll t pat rep) = true := by simp [h1]
        have htl : t.length ≤ n := by simp only [List.length_cons] at hs; omega
        rw [replaceAll_cons _ _ hp, if_neg hpre, replaceAll_cons _ _ hr, if_neg hnp, ih t htl h2]

/-- If `pat` and `rep` are nonempty and the rewrite of `s` creates no spurious
occurrence of `rep` (`restoreSafe`), then replacing `rep` back by `pat` in the
rewritten text restores `s` exactly. -/
theorem replaceAll_roundtrip (pat rep s : List Char) (hp : pat ≠ []) (hr : rep ≠ [])
    (hsafe : restoreSafe s pat rep = true) :
    replaceAll (replaceAll s pat rep) rep pat = s :=
  replaceAll_roundtrip_aux pat rep hp hr s.length s (le_refl _) hsafe

/-! ### `containsSub` agrees with the substring relation -/

theorem containsSub_iff (s pat : List Char) : containsSub s pat = true ↔ pat <:+: s := by
  induction s with
  | nil =>
    simp only [containsSub, List.isEmpty_iff]
    constructor
    · intro h
      rw [h]
    · intro h
      exact List.eq_nil_of_infix_nil h
  | cons c t ih =>
    simp only [containsSub, Bool.or_eq_true, List.isPrefixOf_iff_prefix, ih]
    constructor
    · rintro (h | h)
      · exact h.isInfix
      · exact List.infix_cons h
    · intro h
      rcases List.infix_cons_iff.mp h with h | h
      · exact Or.inl h
      · exact Or.inr h

/-! ### Extraction loop lemmas -/

theorem extractGo_none (cap : Nat → List Char) :
    ∀ (k a : Nat), (∀ b, a ≤ b → b < a + k → findPeerId (cap b) = none) →
      extractGo (fun n => Except.ok (cap n)) k a = (Except.ok none, k) := by
  intro k
  induction k with
  | zero => intro a _; rfl
  | succ k ih =>
    intro a h
    have ha : findPeerId (cap a) = none := h a (le_refl a) (by omega)
    simp only [extractGo, ha]
    rw [ih (a + 1) (fun b hb1 hb2 => h b (by omega) (by omega))]

theorem extractGo_success (cap : Nat → List Char) (a : Nat) (t : List Char) :
    ∀ (k s : Nat), s ≤ a → a < s + k →
      findPeerId (cap a) = some t →
      (∀ b, s ≤ b → b < a → findPeerId (cap b) = none) →
      extractGo (fun n => Except.ok (cap n)) k s = (Except.ok (some (a, t)), a + 1 - s) := by
  intro k
  induction k with
  | zero => intro s h1 h2 _ _; omega
  | succ k ih =>
    intro s hsa hak hm hnone
    by_cases hs : s = a
    · subst hs
      simp only [extractGo, hm]
      congr 1
      omega
    · have hlt : s < a := lt_of_le_of_ne hsa hs
      have hs0 : findPeerId (cap s) = none := hnone s (le_refl s) hlt
      simp only [extractGo, hs0]
      rw [ih (s + 1) (by omega) (by omega) hm (fun b hb1 hb2 => hnone b (by omega) hb2)]
      simp only []
      congr 1
      omega

theorem extractGo_some_implies (cap : Nat → Except String (List Char)) :
    ∀ (k s a : Nat) (t : List Char), (extractGo cap k s).1 = Except.ok (some (a, t)) →
      ∃ l, cap a = Except.ok l ∧ findPeerId l = some t := by
  intro k
  induction k with
  | zero => intro s a t h; cases h
  | succ k ih =>
    intro s a t h
    simp only [extractGo] at h
    split at h
    · simp at h
    · rename_i line heq
      split at h
      · rename_i t0 hf
        simp only [Except.ok.injEq, Option.some.injEq, Prod.mk.injEq] at h
        obtain ⟨rfl, rfl⟩ := h
        exact ⟨line, heq, hf⟩
      · exact ih (s + 1) a t h

theorem extractGo_ok (cap : Nat → Except String (List Char)) :
    ∀ (k s : Nat), (∀ b, s ≤ b → b < s + k → ∃ l, cap b = Except.ok l) →
      ∃ r, (extractGo cap k s).1 = Except.ok r := by
  intro k
  induction k with
  | zero => intro s _; exact ⟨none, rfl⟩
  | succ k ih =>
    intro s h
    obtain ⟨l, hl⟩ := h s (le_refl s) (by omega)
    simp only [extractGo, hl]
    cases hf : findPeerId l with
    | some t => exact ⟨some (s, t), rfl⟩
    | none => exact ih (s + 1) (fun b hb1 hb2 => h b (by omega) (by omega))

/-! ### Which tokens the regex can return -/

theorem matchTokenAt_spec (s t : List Char) (h : matchTokenAt s = some t) :
    "12D3".data <+: t ∧ (∀ c ∈ t, c.isAlphanum = true) ∧ 48 ≤ t.length ∧
      ("local_peer_id=".data ++ t) <+: s := by
  unfold matchTokenAt at h
  by_cases hpre : peerIdLit.isPrefixOf s = true
  · rw [if_pos hpre] at h
    simp only at h
    by_cases hlen : 44 ≤ ((s.drop peerIdLit.length).takeWhile Char.isAlphanum).length
    · rw [if_pos hlen] at h
      obtain ht : "12D3".data ++ (s.drop peerIdLit.length).takeWhile Char.isAlphanum = t :=
        Option.some.inj h
      subst ht
      refine ⟨⟨_, rfl⟩, ?_, ?_, ?_⟩
      · intro c hc
        rcases List.mem_append.mp hc with hc | hc
        · have : c = '1' ∨ c = '2' ∨ c = 'D' ∨ c = '3' := by
            simpa using hc
          rcases this with rfl | rfl | rfl | rfl <;> decide
        · exact List.mem_takeWhile_imp hc
      · have h4 : ("12D3".data).length = 4 := rfl
        rw [List.length_append, h4]
        omega
      · obtain ⟨u, hu⟩ := List.isPrefixOf_iff_prefix.mp hpre
        obtain ⟨v, hv⟩ :
            ∃ v, (s.drop peerIdLit.length).takeWhile Char.isAlphanum ++ v
              = s.drop peerIdLit.length :=
          ⟨(s.drop peerIdLit.length).dropWhile Char.isAlphanum,
            List.takeWhile_append_dropWhile _ _⟩
        refine ⟨v, ?_⟩
        have hs : peerIdLit ++ s.drop peerIdLit.length = s := by
          rw [← hu, List.drop_left' rfl]
        have hlit : "local_peer_id=".data ++ "12D3".data = peerIdLit := rfl
        rw [← List.append_assoc, hlit, List.append_assoc, hv, hs]
    · rw [if_neg hlen] at h
      cases h
  · rw [if_neg hpre] at h
    cases h

theorem regexFindPeerId_spec :
    ∀ (s t : List Char), regexFindPeerId s = some t →
      "12D3".data <+: t ∧ (∀ c ∈ t, c.isAlphanum = true) ∧ 48 ≤ t.length ∧
        ("local_peer_id=".data ++ t) <:+: s := by
  intro s
  induction s with
  | nil => intro t h; cases h
  | cons c rest ih =>
    intro t h
    simp only [regexFindPeerId] at h
    cases hm : matchTokenAt (c :: rest) with
    | some tok =>
      rw [hm] at h
      obtain rfl : tok = t := Option.some.inj h
      obtain ⟨h1, h2, h3, h4⟩ := matchTokenAt_spec _ _ hm
      exact ⟨h1, h2, h3, h4.isInfix⟩
    | none =>
      rw [hm] at h
      obtain ⟨h1, h2, h3, h4⟩ := ih t h
      exact ⟨h1, h2, h3, List.infix_cons h4⟩

theorem findPeerId_spec (l t : List Char) (h : findPeerId l = some t) :
    "12D3".data <+: t ∧ (∀ c ∈ t, c.isAlphanum = true) ∧ 48 ≤ t.length ∧
      ("local_peer_id=".data ++ t) <:+: l := by
  unfold findPeerId at h
  by_cases htrim : trimChars l = []
  · rw [if_pos htrim] at h; cases h
  · rw [if_neg htrim] at h
    exact regexFindPeerId_spec l t h

/-! ### Non-overlapping scan count versus positional occurrence count -/

/-- Pattern `pat` cannot overlap a copy of itself: no proper nonempty shift-aligned
shift of `pat` is a prefix of `pat`.  All three NAT markers satisfy this, so
for them the scan count equals the positional occurrence count. -/
def SelfOverlapFree (pat : List Char) : Prop :=
  ∀ i, i < pat.length → 0 < i → ¬ ((pat.drop i) <+: pat)

theorem posCount_nil (pat : List Char) (hp : pat ≠ []) : posCount [] pat = 0 := by
  cases pat with
  | nil => exact absurd rfl hp
  | cons c t => rfl

theorem posCount_cons_of_not_match (pat : List Char) (c : Char) (t : List Char)
    (h : ¬ pat.isPrefixOf (c :: t) = true) :
    posCount (c :: t) pat = posCount t pat := by
  unfold posCount
  rw [show (c :: t).length = t.length + 1 from rfl, List.range_succ_eq_map, List.countP_cons,
    List.countP_map]
  have hcomp : ((fun i => pat.isPrefixOf ((c :: t).drop i)) ∘ Nat.succ)
      = fun j => pat.isPrefixOf (t.drop j) := by
    funext j
    simp [Function.comp, List.drop_succ_cons]
  rw [hcomp]
  simp only [List.drop_zero]
  rw [if_neg h]
  omega

theorem posCount_of_match (pat u : List Char) (hp : pat ≠ [])
    (hov : SelfOverlapFree pat) :
    posCount (pat ++ u) pat = posCount u pat + 1 := by
  unfold posCount
  rw [List.length_append,
    show pat.length + u.length + 1 = pat.length + (u.length + 1) from by omega,
    List.range_add, List.countP_append, List.countP_map]
  have hcomp : ((fun i => pat.isPrefixOf ((pat ++ u).drop i)) ∘ (fun x => pat.length + x))
      = fun j => pat.isPrefixOf (u.drop j) := by
    funext j
    simp [Function.comp, List.drop_append]
  rw [hcomp]
  have h1 : List.countP (fun i => pat.isPrefixOf ((pat ++ u).drop i))
      (List.range pat.length) = 1 := by
    obtain ⟨m, hm⟩ : ∃ m, pat.length = m + 1 := by
      cases hpl : pat.length with
      | zero => exact absurd (List.length_eq_zero.mp hpl) hp
      | succ m => exact ⟨m, rfl⟩
    have hz : pat.isPrefixOf (pat ++ u) = true :=
      List.isPrefixOf_iff_prefix.mpr (List.prefix_append pat u)
    rw [hm, List.range_succ_eq_map, List.countP_cons, List.countP_map]
    have hrest : List.countP ((fun i => pat.isPrefixOf ((pat ++ u).drop i)) ∘ Nat.succ)
        (List.range m) = 0 := by
      rw [List.countP_eq_zero]
      intro j hj hpj
      have hj2 : j + 1 < pat.length := by
        rw [hm]
        exact Nat.succ_lt_succ (List.mem_range.mp hj)
      have hdecomp : (pat ++ u).drop (j + 1) = pat.drop (j + 1) ++ u := by
        rw [List.drop_append_eq_append_drop]
        have hz2 : j + 1 - pat.length = 0 := by omega
        rw [hz2, List.drop_zero]
      simp only [Function.comp] at hpj
      rw [hdecomp] at hpj
      have hpp : pat <+: pat.drop (j + 1) ++ u := List.isPrefixOf_iff_prefix.mp hpj
      have hq : pat.drop (j + 1) <+: pat :=
        List.prefix_of_prefix_length_le (List.prefix_append _ _) hpp
          (by rw [List.length_drop]; omega)
      exact hov (j + 1) hj2 (Nat.succ_pos j) hq
    rw [hrest]
    simp only [List.drop_zero, hz, if_true]
  rw [h1]
  omega

theorem countOcc_eq_posCount_aux (pat : List Char) (hp : pat ≠ [])
    (hov : SelfOverlapFree pat) :
    ∀ (n : Nat) (s : List Char), s.length ≤ n → countOcc s pat = posCount s pat := by
  intro n
  induction n with
  | zero =>
    intro s hs
    have : s = [] := List.length_eq_zero.mp (Nat.le_zero.mp hs)
    subst this
    rw [countOcc_nil _ hp, posCount_nil _ hp]
  | succ n ih =>
    intro s hs
    cases s with
    | nil => rw [countOcc_nil _ hp, posCount_nil _ hp]
    | cons c t =>
      by_cases hpre : pat.isPrefixOf (c :: t) = true
      · obtain ⟨u, hu⟩ := List.isPrefixOf_iff_prefix.mp hpre
        have hdrop : (c :: t).drop pat.length = u := by
          rw [← hu, List.drop_left' rfl]
        have hdlen : u.length ≤ n := by
          have h1 := List.length_pos.mpr hp
          have h2 : (c :: t).length = pat.length + u.length := by
            rw [← hu, List.length_append]
          simp only [List.length_cons] at h2 hs
          omega
        rw [countOcc_cons _ hp, if_pos hpre, hdrop, ← hu,
          posCount_of_match pat u hp hov, ih u hdlen]
      · have htl : t.length ≤ n := by simp only [List.length_cons] at hs; omega
        rw [countOcc_cons _ hp, if_neg hpre, posCount_cons_of_not_match _ _ _ hpre, ih t htl]

/-- For a pattern that cannot overlap itself, the left-to-right
non-overlapping scan count used by the harness equals the number of
positions at which the pattern occurs. -/
theorem countOcc_eq_posCount (pat s : List Char) (hp : pat ≠ [])
    (hov : SelfOverlapFree pat) : countOcc s pat = posCount s pat :=
  countOcc_eq_posCount_aux pat hp hov s.length s (le_refl _)

/-! ### Claims -/

/-- Claim C1, counterexample: with doc = "aba", P = "b", V = "aa" both of the
claim's hypotheses hold (V does not occur in doc, P is not a substring of V),
yet restore(apply(doc, P, V), V, P) = "bb" ≠ doc: the inserted copies of V
juxtapose with neighbouring characters of doc into spurious occurrences of V,
which restore also rewrites. -/
theorem claim1_roundtrip_counterexample :
    ¬ ("aa".data <:+: "aba".data) ∧ ¬ ("b".data <:+: "aa".data) ∧
      replaceAll (replaceAll "aba".data "b".data "aa".data) "aa".data "b".data ≠ "aba".data := by
  decide

/-- Claim C1 (amended): restoring after applying is the identity,
`restore(apply(doc, P, V), V, P) = doc`, whenever V does not occur in doc,
P is not a substring of V, and additionally the rewrite creates no occurrence
of V beyond the substituted copies (`restoreSafe`). -/
theorem claim1_roundtrip_amended (doc P V : List Char)
    (h1 : ¬ (V <:+: doc)) (h2 : ¬ (P <:+: V)) (h3 : restoreSafe doc P V = true) :
    replaceAll (replaceAll doc P V) V P = doc := by
  have hP : P ≠ [] := by
    intro h
    subst h
    exact h2 (List.nil_infix)
  have hV : V ≠ [] := by
    intro h
    subst h
    exact h1 (List.nil_infix)
  exact replaceAll_roundtrip P V doc hP hV h3

/-- Witness for the amended claim C1 at the spec's example document. -/
theorem claim1_roundtrip_witness :
    (¬ ("12D3KooXYZ".data <:+: "cmd --peer=BOOTSTRAP_PEER_ID".data)) ∧
    (¬ ("BOOTSTRAP_PEER_ID".data <:+: "12D3KooXYZ".data)) ∧
    restoreSafe "cmd --peer=BOOTSTRAP_PEER_ID".data "BOOTSTRAP_PEER_ID".data
      "12D3KooXYZ".data = true ∧
    replaceAll (replaceAll "cmd --peer=BOOTSTRAP_PEER_ID".data "BOOTSTRAP_PEER_ID".data
        "12D3KooXYZ".data) "12D3KooXYZ".data "BOOTSTRAP_PEER_ID".data
      = "cmd --peer=BOOTSTRAP_PEER_ID".data :=
  ⟨by decide, by decide, by decide,
    claim1_roundtrip_amended _ _ _ (by decide) (by decide) (by decide)⟩

/-- Claim C6: the connectivity classifier returns "connected" exactly when
the log text contains "Connected to" or "Total connected peers"; it is a
total Bool-valued function, so the absence of both markers yields the
negative classification `false` rather than an error. -/
theorem claim6_classifier_iff (s : List Char) :
    classifyConnected s = true ↔
      ("Connected to".data <:+: s) ∨ ("Total connected peers".data <:+: s) := by
  unfold classifyConnected
  rw [Bool.or_eq_true, containsSub_iff, containsSub_iff]

/-- Claim C7: the bootstrap-node query returns a non-empty ordered list whose
entries are multiaddress-with-identity strings, and the externally invokable
command returns exactly the same list as the internal function.  Both are
constants of the model, so repeated calls trivially agree. -/
theorem claim7_bootstrap_nodes_spec :
    get_bootstrap_nodes ≠ [] ∧
    (∀ s ∈ get_bootstrap_nodes, specMultiaddrWithIdentity s = true) ∧
    get_bootstrap_nodes_command = get_bootstrap_nodes := by
  refine ⟨by decide, ?_, rfl⟩
  intro s hs
  have hone :
      s = "/ip4/35.237.133.42/tcp/4001/p2p/12D3KooWBeY3FuPXggnUu8f56TQde1xfvFpdsLV5coXptn5ztVJG" := by
    simpa [get_bootstrap_nodes] using hs
  subst hone
  decide

/-- Witness for claim C7 at the single configured bootstrap node. -/
theorem claim7_bootstrap_nodes_witness :
    specMultiaddrWithIdentity
      "/ip4/35.237.133.42/tcp/4001/p2p/12D3KooWBeY3FuPXggnUu8f56TQde1xfvFpdsLV5coXptn5ztVJG"
      = true :=
  claim7_bootstrap_nodes_spec.2.1 _ (by decide)

/-- Claim C9: for each of the three traversal-protocol markers the computed
count equals the exact number of occurrences of the marker in the text, and
the counts never gate success or failure: two worlds that differ only in the
content of the fetched NAT logs produce runs with the same exit status. -/
theorem claim9_marker_counts :
    (∀ (s pat : List Char), pat ∈ natMarkers → countOcc s pat = posCount s pat) ∧
    (∀ (w w' : World) (fs0 l l' : List Char),
      w'.buildRes = w.buildRes → w'.bootRes = w.bootRes →
      w'.inspectStartRes = w.inspectStartRes → w'.capRes = w.capRes →
      w'.readRes = w.readRes → w'.writeRes = w.writeRes →
      w'.startAllRes = w.startAllRes → w'.inspectPeer1Res = w.inspectPeer1Res →
      w'.connLogsRes = w.connLogsRes →
      w.natLogsRes = Except.ok l → w'.natLogsRes = Except.ok l' →
      runOk (natTestMain w' fs0) = runOk (natTestMain w fs0)) := by
  constructor
  · intro s pat hmem
    have hcases : pat = "DCUtR".data ∨ pat = "AutoNAT".data ∨ pat = "Reachability".data := by
      simpa [natMarkers] using hmem
    rcases hcases with rfl | rfl | rfl
    · exact countOcc_eq_posCount _ s (by decide) (by unfold SelfOverlapFree; decide)
    · exact countOcc_eq_posCount _ s (by decide) (by unfold SelfOverlapFree; decide)
    · exact countOcc_eq_posCount _ s (by decide) (by unfold SelfOverlapFree; decide)
  · intro w w' fs0 l l' h1 h2 h3 h4 h5 h6 h7 h8 h9 hl hl'
    unfold natTestMain
    rw [h1, h2, h3, h4, h5, h6, h7, h8, h9, hl, hl']
    cases w.buildRes with
    | error e => rfl
    | ok bOk =>
    cases bOk with
    | false => rfl
    | true =>
    cases w.bootRes with
    | error e => rfl
    | ok sOk =>
    cases sOk with
    | false => rfl
    | true =>
    cases w.inspectStartRes with
    | error e => rfl
    | ok st =>
    cases (extractPeerId w.capRes).1 with
    | error e => rfl
    | ok ro =>
    cases ro with
    | none => rfl
    | some p =>
    cases p with
    | mk a pid =>
    cases w.readRes with
    | some e => rfl
    | none =>
    cases w.writeRes 1 with
    | some e => rfl
    | none =>
    cases w.startAllRes with
    | error e => rfl
    | ok aOk =>
    cases aOk with
    | false => rfl
    | true =>
    cases w.writeRes 2 with
    | some e => rfl
    | none =>
    cases w.inspectPeer1Res with
    | error e => rfl
    | ok cmd =>
    cases connChecksFrom w.connLogsRes 0 containerNames.length with
    | error e => rfl
    | ok conns => rfl

/-- Witness for claim C9: a text with three occurrences of "DCUtR" counts
exactly 3. -/
theorem claim9_marker_counts_witness :
    countOcc "xDCUtRyyDCUtRzzzDCUtR".data "DCUtR".data
        = posCount "xDCUtRyyDCUtRzzzDCUtR".data "DCUtR".data ∧
    countOcc "xDCUtRyyDCUtRzzzDCUtR".data "DCUtR".data = 3 :=
  ⟨claim9_marker_counts.1 _ _ (by decide), by decide⟩

/-- Claim C3: if some attempt's capture matches the peer-id pattern, the
extractor returns the matched token together with the attempt number of the
first attempt whose capture matches, and performs exactly that many attempts
(no further attempt after the success). -/
theorem claim3_first_match (cap : Nat → List Char) (a : Nat) (t : List Char)
    (ha1 : 1 ≤ a) (ha2 : a ≤ maxAttempts)
    (hm : findPeerId (cap a) = some t)
    (hfirst : ∀ b, 1 ≤ b → b < a → findPeerId (cap b) = none) :
    extractPeerId (fun n => Except.ok (cap n)) = (Except.ok (some (a, t)), a) := by
  have hlt : a < 1 + maxAttempts := by
    unfold maxAttempts at ha2 ⊢
    omega
  have h := extractGo_success cap a t maxAttempts 1 ha1 hlt hm hfirst
  unfold extractPeerId
  rw [h, Prod.mk.injEq]
  exact ⟨rfl, by omega⟩

/-- Witness for claim C3: the capture of attempt 3 is the first to match, so
the extractor returns the token with attempt number 3 after exactly 3
attempts. -/
theorem claim3_first_match_witness :
    extractPeerId (fun n => Except.ok (if n = 3
        then "local_peer_id=12D3KooWbbbbbbbbbbbbbbbbbbbbbbbbbbbbbbbbbbbbbbbb".data
        else []))
      = (Except.ok (some (3, "12D3KooWbbbbbbbbbbbbbbbbbbbbbbbbbbbbbbbbbbbbbbbb".data)), 3) :=
  claim3_first_match _ 3 _ (by decide) (by decide) (by decide)
    (fun b hb1 hb2 => by interval_cases b <;> decide)

/-- Claim C2: if no capture matches across the 20 attempts, the extractor
makes exactly 20 attempts (each preceded by the configured one-second fixed
delay) and main then fails with the extraction-timeout error, whose message
carries the hint telling where to look for the raw logs. -/
theorem claim2_timeout (cap : Nat → List Char) (w : World) (fs0 st : List Char)
    (hnone : ∀ b, 1 ≤ b → b ≤ maxAttempts → findPeerId (cap b) = none)
    (hcap : w.capRes = fun n => Except.ok (cap n))
    (hb : w.buildRes = Except.ok true) (hs : w.bootRes = Except.ok true)
    (hi : w.inspectStartRes = Except.ok st) :
    extractPeerId w.capRes = (Except.ok none, maxAttempts) ∧
    maxAttempts = 20 ∧ attemptDelaySecs = 1 ∧
    (natTestMain w fs0).1 = Except.error extractionTimeoutMsg ∧
    containsSub extractionTimeoutMsg.data "docker logs chiral-bootstrap".data = true := by
  have hext : extractPeerId (fun n => Except.ok (cap n)) = (Except.ok none, maxAttempts) := by
    unfold extractPeerId
    exact extractGo_none cap maxAttempts 1
      (fun b hb1 hb2 => hnone b hb1 (by unfold maxAttempts at hb2 ⊢; omega))
  refine ⟨by rw [hcap]; exact hext, rfl, rfl, ?_, by decide⟩
  unfold natTestMain
  rw [hb, hs, hi, hcap, hext]
  rfl

/-- Witness for claim C2: with every capture blank, the loop runs 20 attempts
and main exits with the timeout error. -/
theorem claim2_timeout_witness :
    extractPeerId
        ({ buildRes := Except.ok true, bootRes := Except.ok true,
           inspectStartRes := Except.ok [], capRes := fun _ => Except.ok [],
           readRes := none, writeRes := fun _ => none,
           startAllRes := Except.ok true, inspectPeer1Res := Except.ok [],
           connLogsRes := fun _ => Except.ok [],
           natLogsRes := Except.ok [] : World }).capRes = (Except.ok none, maxAttempts) ∧
    maxAttempts = 20 ∧ attemptDelaySecs = 1 ∧
    (natTestMain
        { buildRes := Except.ok true, bootRes := Except.ok true,
          inspectStartRes := Except.ok [], capRes := fun _ => Except.ok [],
          readRes := none, writeRes := fun _ => none,
          startAllRes := Except.ok true, inspectPeer1Res := Except.ok [],
          connLogsRes := fun _ => Except.ok [],
          natLogsRes := Except.ok [] } []).1 = Except.error extractionTimeoutMsg ∧
    containsSub extractionTimeoutMsg.data "docker logs chiral-bootstrap".data = true :=
  claim2_timeout (fun _ => []) _ [] []
    (fun _ _ _ => rfl) rfl rfl rfl rfl

/-- Claim C8: every token the extractor returns begins with "12D3", consists
entirely of ASCII alphanumeric characters, has length at least 48, and was
preceded in the capture's log text by the literal "local_peer_id=". -/
theorem claim8_token_shape (cap : Nat → Except String (List Char)) (a : Nat) (t l : List Char)
    (h : (extractPeerId cap).1 = Except.ok (some (a, t)))
    (hl : cap a = Except.ok l) :
    "12D3".data <+: t ∧ (∀ c ∈ t, c.isAlphanum = true) ∧ 48 ≤ t.length ∧
      ("local_peer_id=".data ++ t) <:+: l := by
  obtain ⟨l0, hl0, hf⟩ := extractGo_some_implies cap maxAttempts 1 a t h
  have hll : l0 = l := by
    rw [hl0] at hl
    exact Except.ok.inj hl
  subst hll
  exact findPeerId_spec l0 t hf

/-- Witness for claim C8 at a concrete capture line. -/
theorem claim8_token_shape_witness :
    "12D3".data <+: "12D3KooWbbbbbbbbbbbbbbbbbbbbbbbbbbbbbbbbbbbbbbbb".data ∧
    48 ≤ ("12D3KooWbbbbbbbbbbbbbbbbbbbbbbbbbbbbbbbbbbbbbbbb".data).length ∧
    ("local_peer_id=".data ++ "12D3KooWbbbbbbbbbbbbbbbbbbbbbbbbbbbbbbbbbbbbbbbb".data)
      <:+: "z local_peer_id=12D3KooWbbbbbbbbbbbbbbbbbbbbbbbbbbbbbbbbbbbbbbbb".data := by
  obtain ⟨h1, h2, h3, h4⟩ := claim8_token_shape
    (fun _ => Except.ok "z local_peer_id=12D3KooWbbbbbbbbbbbbbbbbbbbbbbbbbbbbbbbbbbbbbbbb".data)
    1 "12D3KooWbbbbbbbbbbbbbbbbbbbbbbbbbbbbbbbbbbbbbbbb".data
    "z local_peer_id=12D3KooWbbbbbbbbbbbbbbbbbbbbbbbbbbbbbbbbbbbbbbbb".data
    (by decide) rfl
  exact ⟨h1, h3, h4⟩

/-- All external operations of a world succeed at the I/O level (every
process can be spawned, the file can be read and written); the statuses and
payloads they report are unconstrained. -/
def IOClean (w : World) : Prop :=
  (∃ b, w.buildRes = Except.ok b) ∧ (∃ b, w.bootRes = Except.ok b) ∧
  (∃ st, w.inspectStartRes = Except.ok st) ∧
  (∀ a, 1 ≤ a → a ≤ maxAttempts → ∃ l, w.capRes a = Except.ok l) ∧
  w.readRes = none ∧ (∀ n, w.writeRes n = none) ∧
  (∃ b, w.startAllRes = Except.ok b) ∧ (∃ c, w.inspectPeer1Res = Except.ok c) ∧
  (∀ i, ∃ l, w.connLogsRes i = Except.ok l) ∧ (∃ l, w.natLogsRes = Except.ok l)

theorem connChecksFrom_ok (logs : Nat → Except String (List Char))
    (h : ∀ i, ∃ l, logs i = Except.ok l) :
    ∀ (k i : Nat), ∃ r, connChecksFrom logs i k = Except.ok r := by
  intro k
  induction k with
  | zero => intro i; exact ⟨[], rfl⟩
  | succ k ih =>
    intro i
    obtain ⟨l, hl⟩ := h i
    obtain ⟨r, hr⟩ := ih (i + 1)
    refine ⟨classifyConnected l :: r, ?_⟩
    simp only [connChecksFrom, hl, hr]

/-- Claim C4 (amended): in every run whose external operations all succeed at
the I/O level, the process exits zero exactly when the build, the bootstrap
start, the peer-id extraction and the all-peers start all succeed; the
connectivity verification and its warnings never influence the exit status.
(As stated the claim is false: an I/O-level failure, e.g. of the compose-file
read, also exits non-zero — see the counterexample.) -/
theorem claim4_exit_status_amended (w : World) (fs0 : List Char) (hclean : IOClean w) :
    runOk (natTestMain w fs0) = true ↔
      (w.buildRes = Except.ok true ∧ w.bootRes = Except.ok true ∧
        (∃ a t, (extractPeerId w.capRes).1 = Except.ok (some (a, t))) ∧
        w.startAllRes = Except.ok true) := by
  obtain ⟨⟨b, hb⟩, ⟨s2, hs2⟩, ⟨st, hst⟩, hcap, hread, hwrite, ⟨a2, ha2⟩, ⟨cmd, hcmd⟩,
    hconn, ⟨nl, hnl⟩⟩ := hclean
  obtain ⟨ro, hro⟩ : ∃ r, (extractPeerId w.capRes).1 = Except.ok r := by
    unfold extractPeerId
    exact extractGo_ok w.capRes maxAttempts 1
      (fun c hc1 hc2 => hcap c hc1 (by unfold maxAttempts at hc2 ⊢; omega))
  obtain ⟨conns, hconns⟩ := connChecksFrom_ok w.connLogsRes hconn containerNames.length 0
  unfold natTestMain
  rw [hb, hs2, hst, hro, hread, hwrite 1, hwrite 2, ha2, hcmd, hconns, hnl]
  cases b with
  | false => simp [runOk]
  | true =>
  cases s2 with
  | false => simp [runOk]
  | true =>
  cases ro with
  | none => simp [runOk]
  | some p =>
  cases p with
  | mk a t =>
  cases a2 with
  | false => simp [runOk]
  | true => simp [runOk]

/-- The world of the claim C4 counterexample: every docker step reports
success and attempt 1's capture already matches, but reading the compose
file fails at the I/O level. -/
def cexWorld4 : World :=
  { buildRes := Except.ok true, bootRes := Except.ok true,
    inspectStartRes := Except.ok [],
    capRes := fun _ =>
      Except.ok "local_peer_id=12D3KooWbbbbbbbbbbbbbbbbbbbbbbbbbbbbbbbbbbbbbbbb".data,
    readRes := some "could not read docker-compose.nat-test.yml",
    writeRes := fun _ => none, startAllRes := Except.ok true,
    inspectPeer1Res := Except.ok [], connLogsRes := fun _ => Except.ok [],
    natLogsRes := Except.ok [] }

/-- Claim C4, counterexample: a run in which none of the four named failures
occurs — build, bootstrap start and all-peers start report success and
extraction succeeds on attempt 1 — yet the process exits non-zero, because
the compose-file read itself fails and the error propagates. -/
theorem claim4_exit_status_counterexample :
    cexWorld4.buildRes = Except.ok true ∧ cexWorld4.bootRes = Except.ok true ∧
    (extractPeerId cexWorld4.capRes).1
      = Except.ok (some (1, "12D3KooWbbbbbbbbbbbbbbbbbbbbbbbbbbbbbbbbbbbbbbbb".data)) ∧
    cexWorld4.startAllRes = Except.ok true ∧
    runOk (natTestMain cexWorld4 []) = false :=
  ⟨rfl, rfl, by decide, rfl, rfl⟩

/-- A world whose operations all succeed, for the claim C4 witness. -/
def cleanWorld4 : World :=
  { buildRes := Except.ok true, bootRes := Except.ok true,
    inspectStartRes := Except.ok [],
    capRes := fun _ =>
      Except.ok "local_peer_id=12D3KooWbbbbbbbbbbbbbbbbbbbbbbbbbbbbbbbbbbbbbbbb".data,
    readRes := none, writeRes := fun _ => none, startAllRes := Except.ok true,
    inspectPeer1Res := Except.ok [], connLogsRes := fun _ => Except.ok [],
    natLogsRes := Except.ok [] }

/-- Witness for the amended claim C4: with all I/O succeeding and all four
steps succeeding, the run exits zero. -/
theorem claim4_exit_status_witness :
    IOClean cleanWorld4 ∧ runOk (natTestMain cleanWorld4 []) = true := by
  have hclean : IOClean cleanWorld4 :=
    ⟨⟨true, rfl⟩, ⟨true, rfl⟩, ⟨[], rfl⟩, fun _ _ _ => ⟨_, rfl⟩, rfl, fun _ => rfl,
      ⟨true, rfl⟩, ⟨[], rfl⟩, fun _ => ⟨[], rfl⟩, ⟨[], rfl⟩⟩
  refine ⟨hclean, ?_⟩
  rw [claim4_exit_status_amended cleanWorld4 [] hclean]
  exact ⟨rfl, rfl,
    ⟨1, "12D3KooWbbbbbbbbbbbbbbbbbbbbbbbbbbbbbbbbbbbbbbbb".data, by decide⟩, rfl⟩

/-- The world of the claim C5 counterexample and of completing runs: every
operation succeeds, and the capture of attempt 1 carries the peer id. -/
def cexWorld5 : World :=
  { buildRes := Except.ok true, bootRes := Except.ok true,
    inspectStartRes := Except.ok [],
    capRes := fun _ =>
      Except.ok "local_peer_id=12D3KooWbbbbbbbbbbbbbbbbbbbbbbbbbbbbbbbbbbbbbbbb".data,
    readRes := none, writeRes := fun _ => none, startAllRes := Except.ok true,
    inspectPeer1Res := Except.ok [], connLogsRes := fun _ => Except.ok [],
    natLogsRes := Except.ok [] }

/-- Claim C5, counterexample: a run that completes the full sequence yet ends
with the stored document different from its pre-run content.  The pre-run
document is exactly the extracted peer id, so the restore step rewrites it
into the placeholder. -/
theorem claim5_restore_counterexample :
    runOk (natTestMain cexWorld5
        "12D3KooWbbbbbbbbbbbbbbbbbbbbbbbbbbbbbbbbbbbbbbbb".data) = true ∧
    (natTestMain cexWorld5 "12D3KooWbbbbbbbbbbbbbbbbbbbbbbbbbbbbbbbbbbbbbbbb".data).2
      ≠ "12D3KooWbbbbbbbbbbbbbbbbbbbbbbbbbbbbbbbbbbbbbbbb".data :=
  ⟨rfl, by decide⟩

/-- Claim C5 (amended): for every run that completes the full sequence, if
the extracted peer id does not occur in the pre-run document and the rewrite
creates no occurrence of the id beyond the substituted copies, then the
document's content at the end of the run is byte-identical to its pre-run
content (the content differs only in the window between rewrite and
restore). -/
theorem claim5_restore_amended (w : World) (fs0 : List Char)
    (hok : runOk (natTestMain w fs0) = true)
    (hsafe : ∀ a t, (extractPeerId w.capRes).1 = Except.ok (some (a, t)) →
      ¬ (t <:+: fs0) ∧ restoreSafe fs0 bootstrapPlaceholder t = true) :
    (natTestMain w fs0).2 = fs0 := by
  unfold runOk natTestMain at hok
  unfold natTestMain
  cases hb : w.buildRes with
  | error e => simp [hb] at hok
  | ok b =>
  cases b with
  | false => simp [hb] at hok
  | true =>
  cases hs2 : w.bootRes with
  | error e => simp [hb, hs2] at hok
  | ok s2 =>
  cases s2 with
  | false => simp [hb, hs2] at hok
  | true =>
  cases hst : w.inspectStartRes with
  | error e => simp [hb, hs2, hst] at hok
  | ok st =>
  cases hro : (extractPeerId w.capRes).1 with
  | error e => simp [hb, hs2, hst, hro] at hok
  | ok ro =>
  cases ro with
  | none => simp [hb, hs2, hst, hro] at hok
  | some p =>
  cases p with
  | mk a t =>
  cases hrd : w.readRes with
  | some e => simp [hb, hs2, hst, hro, hrd] at hok
  | none =>
  cases hw1 : w.writeRes 1 with
  | some e => simp [hb, hs2, hst, hro, hrd, hw1] at hok
  | none =>
  cases ha2 : w.startAllRes with
  | error e => simp [hb, hs2, hst, hro, hrd, hw1, ha2] at hok
  | ok a2 =>
  cases a2 with
  | false => simp [hb, hs2, hst, hro, hrd, hw1, ha2] at hok
  | true =>
  cases hw2 : w.writeRes 2 with
  | some e => simp [hb, hs2, hst, hro, hrd, hw1, ha2, hw2] at hok
  | none =>
  cases hcm : w.inspectPeer1Res with
  | error e => simp [hb, hs2, hst, hro, hrd, hw1, ha2, hw2, hcm] at hok
  | ok cmd =>
  cases hcc : connChecksFrom w.connLogsRes 0 containerNames.length with
  | error e => simp [hb, hs2, hst, hro, hrd, hw1, ha2, hw2, hcm, hcc] at hok
  | ok conns =>
  cases hnl : w.natLogsRes with
  | error e => simp [hb, hs2, hst, hro, hrd, hw1, ha2, hw2, hcm, hcc, hnl] at hok
  | ok nl =>
  simp only [hb, hs2, hst, hro, hrd, hw1, ha2, hw2, hcm, hcc, hnl]
  obtain ⟨hninf, hsafe2⟩ := hsafe a t hro
  have ht : t ≠ [] := by
    intro h
    subst h
    exact hninf (List.nil_infix)
  exact replaceAll_roundtrip bootstrapPlaceholder t fs0 (by decide) ht hsafe2

/-- Witness for the amended claim C5: a completing run over the example
document restores it exactly. -/
theorem claim5_restore_witness :
    (natTestMain cexWorld5 "cmd --peer=BOOTSTRAP_PEER_ID".data).2
      = "cmd --peer=BOOTSTRAP_PEER_ID".data := by
  apply claim5_restore_amended
  · rfl
  · intro a t h
    have he : (extractPeerId cexWorld5.capRes).1
        = Except.ok (some (1, "12D3KooWbbbbbbbbbbbbbbbbbbbbbbbbbbbbbbbbbbbbbbbb".data)) := by
      decide
    rw [he] at h
    simp only [Except.ok.injEq, Option.some.injEq, Prod.mk.injEq] at h
    obtain ⟨rfl, rfl⟩ := h
    exact ⟨by decide, by decide⟩

/-- The world of claim C10: everything succeeds up to the extraction and the
rewrite, but the "start all peers" step reports non-success. -/
def failWorld10 : World :=
  { buildRes := Except.ok true, bootRes := Except.ok true,
    inspectStartRes := Except.ok [],
    capRes := fun _ =>
      Except.ok "local_peer_id=12D3KooWbbbbbbbbbbbbbbbbbbbbbbbbbbbbbbbbbbbbbbbb".data,
    readRes := none, writeRes := fun _ => none, startAllRes := Except.ok false,
    inspectPeer1Res := Except.ok [], connLogsRes := fun _ => Except.ok [],
    natLogsRes := Except.ok [] }

/-- Claim C10: if the "start all peers" step reports a non-success status,
main returns the fatal "Peer start failed" error before the restore step
runs, and the stored document is left in its rewritten state, with the peer
id substituted for the placeholder and no rollback. -/
theorem claim10_failed_start_leaves_rewrite (w : World) (fs0 : List Char) (a : Nat)
    (t st : List Char)
    (hb : w.buildRes = Except.ok true) (hs2 : w.bootRes = Except.ok true)
    (hst : w.inspectStartRes = Except.ok st)
    (hx : (extractPeerId w.capRes).1 = Except.ok (some (a, t)))
    (hrd : w.readRes = none) (hw1 : w.writeRes 1 = none)
    (hfail : w.startAllRes = Except.ok false) :
    (natTestMain w fs0).1 = Except.error "Peer start failed" ∧
    (natTestMain w fs0).2 = replaceAll fs0 bootstrapPlaceholder t := by
  unfold natTestMain
  rw [hb, hs2, hst, hx, hrd, hw1, hfail]
  exact ⟨rfl, rfl⟩

/-- Witness for claim C10: on the example document the failed run leaves the
file containing the substituted peer id and no longer the placeholder. -/
theorem claim10_failed_start_witness :
    (natTestMain failWorld10 "cmd --peer=BOOTSTRAP_PEER_ID".data).1
      = Except.error "Peer start failed" ∧
    (natTestMain failWorld10 "cmd --peer=BOOTSTRAP_PEER_ID".data).2
      = replaceAll "cmd --peer=BOOTSTRAP_PEER_ID".data bootstrapPlaceholder
          "12D3KooWbbbbbbbbbbbbbbbbbbbbbbbbbbbbbbbbbbbbbbbb".data ∧
    containsSub (natTestMain failWorld10 "cmd --peer=BOOTSTRAP_PEER_ID".data).2
      "12D3KooWbbbbbbbbbbbbbbbbbbbbbbbbbbbbbbbbbbbbbbbb".data = true ∧
    containsSub (natTestMain failWorld10 "cmd --peer=BOOTSTRAP_PEER_ID".data).2
      bootstrapPlaceholder = false := by
  obtain ⟨h1, h2⟩ := claim10_failed_start_leaves_rewrite failWorld10
    "cmd --peer=BOOTSTRAP_PEER_ID".data 1
    "12D3KooWbbbbbbbbbbbbbbbbbbbbbbbbbbbbbbbbbbbbbbbb".data [] rfl rfl rfl
    (by decide) rfl rfl rfl
  exact ⟨h1, h2, by decide, by decide⟩

end ChiralNatTest
